import Mathlib

/-!
Shallow embedding of the tailcat file-tailing engine (`src/source/index.ts`).

The engine is the class `TailCat`: a per-file session holding a byte cursor, a
single optional filesystem watch handle, an in-flight-read flag and a pending
notification counter.  A read pass (`streamFileFromCursor`) stats the file,
reads the byte range `[cursor, size)` as a stream of chunks and splits the
chunk text into lines on the platform separator, emitting every non-blank
line.

Modelling conventions:
* Text is `List Char`; the platform line separator (`EOL` from `os`) is
  modelled as the single character LF.
* JavaScript numbers holding byte sizes and cursors are modelled as `Int`
  (the source itself tolerates non-positive sizes from `stat`); a field or
  expression that may be the JavaScript value `undefined` is an `Option Int`,
  with `none` for `undefined`.  Comparisons involving `undefined` are `false`
  in JavaScript (`NaN` semantics), which `jsLt`/`jsGt`/`jsGe` reproduce.
* The filesystem environment (results of `fs.promises.stat`, and the chunking
  chosen by `createReadStream`) is passed to each operation as explicit
  arguments.
* A ghost field `liveHandles` counts `fs.watch` handles opened minus closed
  by the session, to state the "at most one live watch handle" invariant.
-/

namespace Tailcat

/-- The platform line separator (`EOL` from `os`), modelled as LF. -/
def eolChar : Char := '\n'

/-- Whitespace test used by JavaScript `String.prototype.trim` (ASCII part;
only these characters appear in the development). -/
def isWS (c : Char) : Bool :=
  c == ' ' || c == '\t' || c == '\n' || c == '\r' || c == '\x0b' || c == '\x0c'

/-- `!s.trim()` in the source: true iff the string is empty or all whitespace,
i.e. the line is blank and is skipped rather than emitted. -/
def isBlank (l : List Char) : Bool := l.all isWS

/-- JavaScript `stringChunk.split(EOL)` for the single-character separator:
splits at every separator occurrence, keeping empty segments, and returns
`[""]` on the empty string.  Never returns an empty list. -/
def splitOnEOL : List Char → List (List Char)
  | [] => [[]]
  | c :: rest =>
    if c = eolChar then [] :: splitOnEOL rest
    else
      match splitOnEOL rest with
      | [] => [[c]]
      | s :: ss => (c :: s) :: ss

/-- JavaScript `stringChunk.endsWith(EOL)` for the LF separator. -/
def endsWithEOL (l : List Char) : Bool := l.getLast? == some eolChar

/-- The text produced by interpolating a possibly-undefined array element in a
template literal: `chunks[0]` on an empty array is `undefined`, which the
template literal stringifies to the nine characters `undefined`. -/
def jsGetUndef : List (List Char) → List Char
  | [] => "undefined".toList
  | s :: _ => s

/-- JavaScript `chunks[0] = v`: on an empty array this creates index 0. -/
def jsSet0 : List (List Char) → List Char → List (List Char)
  | [], v => [v]
  | _ :: rest, v => v :: rest

/-- One iteration of the `for await (const item of fileStream)` body in
`streamFileFromCursor` (src/source/index.ts:214-236).  `tail` is the value of
the local variable `tail` entering the iteration, `chunk` the chunk text.
Returns the new `tail` and the lines emitted for this chunk, in order:

* `hasTail := !stringChunk.endsWith(EOL)`
* `chunks := stringChunk.split(EOL)`
* `currentTail := hasTail ? chunks.pop() : ''`
* ``chunks[0] = `${tail}${chunks[0]}` ``
* `tail = currentTail`
* emit every `chunk of chunks` with `chunk.trim()` non-empty. -/
def processChunk (tail chunk : List Char) : List Char × List (List Char) :=
  let hasTail := !(endsWithEOL chunk)
  let chunks0 := splitOnEOL chunk
  let currentTail := if hasTail then (chunks0.getLast?).getD [] else []
  let chunks1 := if hasTail then chunks0.dropLast else chunks0
  let chunks2 := jsSet0 chunks1 (tail ++ jsGetUndef chunks1)
  (currentTail, chunks2.filter (fun l => !(isBlank l)))

/-- The whole `for await` loop of `streamFileFromCursor` over the stream's
chunks, starting from a given `tail`; returns the final `tail` and the
concatenated emissions. -/
def processChunks : List Char → List (List Char) → List Char × List (List Char)
  | tail, [] => (tail, [])
  | tail, c :: cs =>
    let r1 := processChunk tail c
    let r2 := processChunks r1.1 cs
    (r2.1, r1.2 ++ r2.2)

/-- The lines emitted by one read pass over the given chunks.  The locals
`let tail = ''; let currentTail = '';` (src/source/index.ts:211-212) are
declared inside `streamFileFromCursor`, so every pass starts with an empty
trailing fragment; the final `tail` is discarded when the pass returns. -/
def streamPassEmits (chunks : List (List Char)) : List (List Char) :=
  (processChunks [] chunks).2

/-- Result of a successful `fs.promises.stat`: the file size and the value the
`isFile()` method would return if it were invoked. -/
structure Stats where
  size : Int
  isFile : Bool
deriving DecidableEq

/-- Error codes of rejected filesystem promises (`err.code`): `ENOENT` for a
missing file, any other code (such as `EISDIR` from reading a directory)
carried as text. -/
inductive FsError where
  | enoent
  | other (code : String)
deriving DecidableEq

/-- Errors the `TailCat` class itself can surface: the synchronous
`Error('No file name has been passed')` from the constructor, the
`Error('Can only watch files')` in `processFromFileName`, or a re-raised
filesystem error. -/
inductive JsError where
  | noFileName
  | notAFile
  | fs (e : FsError)
deriving DecidableEq

/-- The private state of a `TailCat` instance (src/source/index.ts:21-25),
plus the ghost counter `liveHandles` of currently open `fs.watch` handles
owned by the session.  `cursor` is `Option Int` so that the source's
`this.#cursor === undefined` test (line 119) is expressible; the constructor
initialises it to `some 0` (`#cursor = 0`). -/
structure TailCat where
  cursor : Option Int
  isReading : Bool
  watcher : Bool
  filePath : String
  internalQueue : Nat
  liveHandles : Nat
deriving DecidableEq

/-- The state a freshly constructed `TailCat` holds, from the field
initialisers `#cursor = 0`, `#isReading = false`, `#watcher = undefined`,
`#internalQueue = 0`. -/
def TailCat.fresh (path : String) : TailCat :=
  { cursor := some 0, isReading := false, watcher := false,
    filePath := path, internalQueue := 0, liveHandles := 0 }

/-- `validateFileName` (src/source/index.ts:14-18): throws exactly when the
argument is `undefined` (`none`); any actual string, the empty string
included, passes. -/
def validateFileName : Option String → Except JsError String
  | none => .error .noFileName
  | some s => .ok s

/-- The `TailCat` constructor (src/source/index.ts:27-33): validates the file
name, then stores it. -/
def TailCat.new (fileName : Option String) : Except JsError TailCat :=
  (validateFileName fileName).map TailCat.fresh

/-- Truthiness of the expression `fileData?.isFile` at src/source/index.ts:104.
`isFile` is a *method* of `Stats` and the source does not invoke it, so the
expression is the method reference — truthy for every defined `fileData`,
whatever `isFile()` would return. -/
def isFileMethodRefTruthy (_ : Stats) : Bool := true

/-- JavaScript `<` where either operand may be `undefined` (comparison with
`undefined` coerces to `NaN` and is false). -/
def jsLt : Option Int → Option Int → Bool
  | some a, some b => a < b
  | _, _ => false

/-- JavaScript `>` with possibly-`undefined` operands. -/
def jsGt : Option Int → Option Int → Bool
  | some a, some b => a > b
  | _, _ => false

/-- JavaScript `>=` with possibly-`undefined` operands. -/
def jsGe : Option Int → Option Int → Bool
  | some a, some b => a ≥ b
  | _, _ => false

/-- `streamFileFromCursor` (src/source/index.ts:186-240).  The environment
supplies the result of the `stat` call (`statRes`) and the chunking in which
`createReadStream` delivers the byte range `[cursor, size)` (`chunks`).
Returns the updated session state and either the emitted lines or the
filesystem error the promise rejected with:

* a rejected `stat` propagates;
* `size <= 0` is treated as a spurious report: return without reading;
* `cursor >= size`: nothing new, return without reading;
* otherwise run the chunk loop from an empty local `tail` and set
  `#cursor = nextCursor` (`= size`) afterwards. -/
def streamFileFromCursor (st : TailCat) (statRes : Except FsError Int)
    (chunks : List (List Char)) :
    TailCat × Except FsError (List (List Char)) :=
  match statRes with
  | .error e => (st, .error e)
  | .ok currentFileSize =>
    if currentFileSize ≤ 0 then (st, .ok [])
    else
      let nextCursor := currentFileSize
      if jsGe st.cursor (some nextCursor) then (st, .ok [])
      else ({ st with cursor := some nextCursor }, .ok (streamPassEmits chunks))

/-- Lines 116-121: `if (this.#cursor === undefined) this.#cursor =
currentFileSize === 0 ? 0 : currentFileSize`.  (`#cursor` is initialised to
`0` by its field initialiser and every later assignment stores a number, so
in a run of the class this branch never fires.) -/
def applyCursorDefault (st : TailCat) (currentFileSize : Option Int) : TailCat :=
  if st.cursor = none then
    { st with cursor := if currentFileSize = some 0 then some 0 else currentFileSize }
  else st

/-- Lines 123-129: the eager catch-up read, run only when
`this.#cursor < currentFileSize`. -/
def catchupRead (st : TailCat) (currentFileSize : Option Int)
    (catchupStat : Except FsError Int) (chunks : List (List Char)) :
    TailCat × Except FsError (List (List Char)) :=
  if jsLt st.cursor currentFileSize then streamFileFromCursor st catchupStat chunks
  else (st, .ok [])

/-- Lines 131-136: `if (this.#cursor > currentFileSize) this.#cursor =
currentFileSize` — the reset for faulty `stat` values. -/
def clampCursor (st : TailCat) (currentFileSize : Option Int) : TailCat :=
  if jsGt st.cursor currentFileSize then { st with cursor := currentFileSize }
  else st

/-- Lines 138-146: the guard `if (this.#watcher) return;` followed by
`this.#watcher = watch(this.#filePath, …)`, which opens one handle. -/
def attachWatcher (st : TailCat) : TailCat :=
  if st.watcher then st
  else { st with watcher := true, liveHandles := st.liveHandles + 1 }

/-- The part of `processFromFileName` after the initial `stat`/`catch` block
(src/source/index.ts:116-146): the dead `#cursor === undefined` default, the
eager catch-up read, the clamp of a cursor above the observed size, and the
guarded attachment of the file watcher.  `currentFileSize` is `none` when the
initial `stat` rejected with `ENOENT` (the variable stays `undefined`);
`catchupStat` and `chunks` parameterise the inner `streamFileFromCursor`
call.  A rejected catch-up read propagates out (nothing catches it), skipping
the clamp and the attach. -/
def afterStat (st₀ : TailCat) (currentFileSize : Option Int)
    (catchupStat : Except FsError Int) (chunks : List (List Char)) :
    TailCat × Except JsError (List (List Char)) :=
  let st₁ := applyCursorDefault st₀ currentFileSize
  match catchupRead st₁ currentFileSize catchupStat chunks with
  | (st₂, .error e) => (st₂, .error (.fs e))
  | (st₂, .ok emitted) =>
    (attachWatcher (clampCursor st₂ currentFileSize), .ok emitted)

/-- `processFromFileName` (src/source/index.ts:96-181).  The initial `stat`
either succeeds (then the vacuous `!fileData?.isFile` guard is evaluated) or
rejects: a non-`ENOENT` code is re-thrown, `ENOENT` takes the
`directoryWatcher` path — that helper opens a directory watch handle and
closes it upon resolution (net zero handles), after which `currentFileSize`
is still `undefined`.  Control then continues with `afterStat`. -/
def processFromFileName (st : TailCat) (statRes : Except FsError Stats)
    (catchupStat : Except FsError Int) (chunks : List (List Char)) :
    TailCat × Except JsError (List (List Char)) :=
  match statRes with
  | .ok fileData =>
    if !(isFileMethodRefTruthy fileData) then (st, .error .notAFile)
    else afterStat st (some fileData.size) catchupStat chunks
  | .error e =>
    if e = .enoent then afterStat st none catchupStat chunks
    else (st, .error (.fs e))

/-- `watch` (src/source/index.ts:40-55): an existing watcher makes the call
return immediately with no state change; otherwise the destructuring default
`cursor = this.#cursor` resolves the effective cursor (`cursorArg = none`
models an omitted or `undefined` option), the cursor is stored and
`processFromFileName` runs. -/
def TailCat.watch (st : TailCat) (cursorArg : Option Int)
    (statRes : Except FsError Stats) (catchupStat : Except FsError Int)
    (chunks : List (List Char)) :
    TailCat × Except JsError (List (List Char)) :=
  if st.watcher then (st, .ok [])
  else
    let c := match cursorArg with
             | some v => some v
             | none => st.cursor
    processFromFileName { st with cursor := c } statRes catchupStat chunks

/-- `unwatch` (src/source/index.ts:62-67): `this.#watcher?.close()` closes the
handle when one is present, the field is cleared, and the current cursor is
returned. -/
def TailCat.unwatch (st : TailCat) : TailCat × Option Int :=
  ({ st with
      watcher := false,
      liveHandles := if st.watcher then st.liveHandles - 1 else st.liveHandles },
   st.cursor)

/-- Ghost invariant: the session owns exactly one open `fs.watch` handle when
`#watcher` is set and none otherwise. -/
def HandleInv (st : TailCat) : Prop :=
  st.liveHandles = if st.watcher then 1 else 0

/-- The `catch` branch of the watcher callback (src/source/index.ts:168-176),
entered when `streamFileFromCursor` rejected with `err` inside the
`do`-loop.  For `ENOENT` the queue and flag are reset and nothing is thrown
(the `while` condition then sees a zero queue and the loop exits, line 179
clearing `#isReading` again); for any other code `unwatch()` runs and the
error is re-thrown out of the callback (so line 179 is not reached).
Returns the resulting state and the error surfaced, if any. -/
def watcherCallbackOnPassError (st : TailCat) (err : FsError) :
    TailCat × Option JsError :=
  if err = .enoent then
    ({ st with internalQueue := 0, isReading := false }, none)
  else
    ((TailCat.unwatch st).1, some (.fs err))

/-- The continuation of the `do … while (this.#internalQueue !== 0)` loop
(src/source/index.ts:163-177) at the `while` check with queue value `q`, when
no further notifications arrive: while the queue is non-zero, one more pass
runs and the queue is decremented.  Returns the number of passes run. -/
def drainLoop : Nat → Nat
  | 0 => 0
  | q + 1 => 1 + drainLoop q

/-- Pass count of the `do … while` loop entered with queue value `q` (the
callback increments the queue before entering, so `q ≥ 1`).  `arrivals`
lists, per executed pass, how many data-change notifications fire while that
pass is in flight; each such notification runs `this.#internalQueue++` and
returns immediately because `#isReading` is set.  After each pass the queue
is decremented and the loop continues while it is non-zero; once `arrivals`
is exhausted no further notifications occur. -/
def doWhileLoop : Nat → List Nat → Nat
  | q, [] => 1 + drainLoop (q - 1)
  | q, a :: rest =>
    let q2 := q + a - 1
    if q2 = 0 then 1 else 1 + doWhileLoop q2 rest

/-- A session in the plain watching state: watcher attached, cursor at 0. -/
def watchingState : TailCat :=
  { TailCat.fresh "watched.txt" with watcher := true, liveHandles := 1 }

/-! ## Helper lemmas -/

theorem splitOnEOL_no_eol (l : List Char) (h : eolChar ∉ l) :
    splitOnEOL l = [l] := by
  induction l with
  | nil => rfl
  | cons c rest ih =>
    have hc : ¬ (c = eolChar) := fun hh => h (hh ▸ List.mem_cons_self c rest)
    have hrest : splitOnEOL rest = [rest] :=
      ih (fun hm => h (List.mem_cons_of_mem c hm))
    simp [splitOnEOL, hc, hrest]

theorem endsWithEOL_no_eol (l : List Char) (h : eolChar ∉ l) :
    endsWithEOL l = false := by
  unfold endsWithEOL
  cases hl : l.getLast? with
  | none => rfl
  | some c =>
    have hc : c ∈ l := List.mem_of_getLast?_eq_some hl
    have : ¬ (c = eolChar) := fun hh => h (hh ▸ hc)
    simp [this]

theorem isBlank_append_undef (t : List Char) :
    isBlank (t ++ "undefined".toList) = false := by
  unfold isBlank
  rw [List.all_append]
  have hu : ("undefined".toList).all isWS = false := by decide
  rw [hu, Bool.and_false]

theorem drainLoop_eq (m : Nat) : drainLoop m = m := by
  induction m with
  | zero => rfl
  | succ k ih => simp [drainLoop, ih]; omega

theorem handleInv_streamFileFromCursor (st : TailCat) (sr : Except FsError Int)
    (chunks : List (List Char)) (h : HandleInv st) :
    HandleInv (streamFileFromCursor st sr chunks).1 := by
  unfold HandleInv at *
  unfold streamFileFromCursor
  cases sr with
  | error e => exact h
  | ok s =>
    dsimp only
    split
    · exact h
    · split
      · exact h
      · simpa using h

theorem handleInv_applyCursorDefault (st : TailCat) (cfs : Option Int)
    (h : HandleInv st) : HandleInv (applyCursorDefault st cfs) := by
  unfold HandleInv at *
  unfold applyCursorDefault
  split <;> simpa using h

theorem handleInv_catchupRead (st : TailCat) (cfs : Option Int)
    (cs : Except FsError Int) (chunks : List (List Char)) (h : HandleInv st) :
    HandleInv (catchupRead st cfs cs chunks).1 := by
  unfold catchupRead
  split
  · exact handleInv_streamFileFromCursor st cs chunks h
  · exact h

theorem handleInv_clampCursor (st : TailCat) (cfs : Option Int)
    (h : HandleInv st) : HandleInv (clampCursor st cfs) := by
  unfold HandleInv at *
  unfold clampCursor
  split <;> simpa using h

theorem handleInv_attachWatcher (st : TailCat) (h : HandleInv st) :
    HandleInv (attachWatcher st) := by
  unfold HandleInv at *
  unfold attachWatcher
  split <;> simp_all

theorem handleInv_afterStat (st : TailCat) (cfs : Option Int)
    (cs : Except FsError Int) (chunks : List (List Char)) (h : HandleInv st) :
    HandleInv (afterStat st cfs cs chunks).1 := by
  unfold afterStat
  dsimp only
  have h1 := handleInv_applyCursorDefault st cfs h
  rcases hres : catchupRead (applyCursorDefault st cfs) cfs cs chunks with ⟨st₂, res⟩
  have h2 : HandleInv st₂ := by
    have h3 := handleInv_catchupRead (applyCursorDefault st cfs) cfs cs chunks h1
    rw [hres] at h3
    exact h3
  cases res with
  | error e => exact h2
  | ok emitted => exact handleInv_attachWatcher _ (handleInv_clampCursor _ _ h2)

theorem handleInv_processFromFileName (st : TailCat) (sr : Except FsError Stats)
    (cs : Except FsError Int) (chunks : List (List Char)) (h : HandleInv st) :
    HandleInv (processFromFileName st sr cs chunks).1 := by
  unfold processFromFileName
  cases sr with
  | ok fileData =>
    dsimp only
    split
    · exact h
    · exact handleInv_afterStat _ _ _ _ h
  | error e =>
    dsimp only
    split
    · exact handleInv_afterStat _ _ _ _ h
    · exact h

theorem handleInv_watch (st : TailCat) (cursorArg : Option Int)
    (sr : Except FsError Stats) (cs : Except FsError Int)
    (chunks : List (List Char)) (h : HandleInv st) :
    HandleInv (TailCat.watch st cursorArg sr cs chunks).1 := by
  unfold TailCat.watch
  split
  · exact h
  · exact handleInv_processFromFileName _ _ _ _ h

theorem handleInv_unwatch (st : TailCat) (h : HandleInv st) :
    HandleInv (TailCat.unwatch st).1 := by
  unfold HandleInv at *
  unfold TailCat.unwatch
  by_cases hw : st.watcher <;> simp [hw] at h ⊢ <;> omega

theorem attachWatcher_cursor (st : TailCat) :
    (attachWatcher st).cursor = st.cursor := by
  unfold attachWatcher
  split <;> rfl

theorem clampCursor_le (st : TailCat) (c s : Int) (h : st.cursor = some c) :
    ∃ d, (clampCursor st (some s)).cursor = some d ∧ d ≤ s := by
  unfold clampCursor
  by_cases hgt : jsGt st.cursor (some s) = true
  · refine ⟨s, by simp [hgt], le_refl s⟩
  · rw [h] at hgt
    have hle : c ≤ s := by
      simp [jsGt] at hgt
      exact hgt
    exact ⟨c, by simp [hgt, h], hle⟩

theorem streamFileFromCursor_cursor (st : TailCat) (c s : Int)
    (chunks : List (List Char)) (h : st.cursor = some c) :
    (streamFileFromCursor st (Except.ok s) chunks).1.cursor = some c ∨
      (streamFileFromCursor st (Except.ok s) chunks).1.cursor = some s := by
  unfold streamFileFromCursor
  dsimp only
  split
  · exact Or.inl h
  · split
    · exact Or.inl h
    · exact Or.inr rfl

theorem catchupRead_cursor_some (st : TailCat) (cfs : Option Int) (s : Int)
    (chunks : List (List Char)) (c₁ : Int) (h : st.cursor = some c₁) :
    (catchupRead st cfs (Except.ok s) chunks).1.cursor = some c₁ ∨
      (catchupRead st cfs (Except.ok s) chunks).1.cursor = some s := by
  unfold catchupRead
  split
  · exact streamFileFromCursor_cursor st c₁ s chunks h
  · exact Or.inl h

theorem applyCursorDefault_cursor_some (st : TailCat) (s : Int) :
    ∃ c, (applyCursorDefault st (some s)).cursor = some c := by
  unfold applyCursorDefault
  rcases hc : st.cursor with _ | c
  · by_cases hs : (some s : Option Int) = some 0
    · exact ⟨0, by simp [hc, hs]⟩
    · exact ⟨s, by simp [hc, hs]⟩
  · exact ⟨c, by simp [hc]⟩

/-! ## Claim theorems -/

/-- Claim C1, evaluation of the code at the failing input.  The single
terminated write `aa⟨LF⟩` is appended and one read pass runs, the stream
delivering the byte range as the two chunks `a` and `a⟨LF⟩` (a chunk boundary
inside the line).  The written non-blank lines are exactly `[aa]`, but the
pass emits the spurious line `undefined` before `aa`: when a chunk contains
no separator, `chunks.pop()` empties the split array and
``chunks[0] = `${tail}${chunks[0]}` `` interpolates the `undefined` element.
So the emitted sequence is not the sequence of non-blank written lines. -/
theorem claim1_spurious_undefined_line :
    streamPassEmits ["a".toList, "a\n".toList]
        = ["undefined".toList, "aa".toList] ∧
      ["undefined".toList, "aa".toList] ≠ ["aa".toList] := by
  constructor
  · rfl
  · decide

/-- Claim C2, evaluation of the code at the failing input.  Pass 1 reads the
unterminated bytes `abc`; pass 2 reads `def⟨LF⟩` after the terminator
arrives.  The claim requires pass 1 to emit nothing (carrying `abc` as the
trailing fragment) and pass 2 to emit the full line `abcdef` exactly once.
Instead, because `tail` is a variable local to each `streamFileFromCursor`
call, pass 1 emits the spurious line `undefined` and discards `abc`, and
pass 2 emits the fragment `def`; `abcdef` is never emitted. -/
theorem claim2_fragment_dropped_across_passes :
    streamFileFromCursor watchingState (Except.ok 3) ["abc".toList]
        = ({ watchingState with cursor := some 3 },
           Except.ok ["undefined".toList]) ∧
      streamFileFromCursor { watchingState with cursor := some 3 }
          (Except.ok 7) ["def\n".toList]
        = ({ watchingState with cursor := some 7 },
           Except.ok ["def".toList]) :=
  ⟨rfl, rfl⟩

/-- Claim C3, counterexample.  A freshly constructed session has cursor
`some 0` (the field initialiser `#cursor = 0`), so the branch that would
default an `undefined` cursor to the file size never fires: the first
`watch()` with no cursor option reads from byte 0, and the pre-existing
content `hi⟨LF⟩` (file size 3) IS emitted — refuting "starts at end-of-file,
pre-existing file content is not emitted". -/
theorem claim3_counterexample :
    (TailCat.fresh "file.txt").cursor = some 0 ∧
      (TailCat.watch (TailCat.fresh "file.txt") none
          (Except.ok { size := 3, isFile := true }) (Except.ok 3)
          ["hi\n".toList]).2
        = Except.ok ["hi".toList] :=
  ⟨rfl, rfl⟩

/-- Claim C3, amended: a session whose cursor has never been set holds the
construction default `0`, not the file's size — the `#cursor === undefined`
branch is dead because the field is initialised to `0` — so the first
`watch()` with no cursor option starts at byte 0 and emits the pre-existing
content `[0, size)` through the eager catch-up read. -/
theorem claim3_amended_first_watch_reads_from_zero (path : String) (s : Int)
    (b : Bool) (chunks : List (List Char)) (h : 0 < s) :
    TailCat.watch (TailCat.fresh path) none
        (Except.ok { size := s, isFile := b }) (Except.ok s) chunks
      = ({ TailCat.fresh path with
            cursor := some s, watcher := true, liveHandles := 1 },
         Except.ok (streamPassEmits chunks)) := by
  have h0 : ¬ (s ≤ 0) := by omega
  have hge : ¬ ((0 : Int) ≥ s) := by omega
  simp [TailCat.watch, TailCat.fresh, processFromFileName, isFileMethodRefTruthy,
        afterStat, applyCursorDefault, catchupRead, clampCursor, attachWatcher,
        streamFileFromCursor, jsLt, jsGe, jsGt, h, h0, hge]

/-- Witness for the amended claim C3 at size 3 and pre-existing content
`hi⟨LF⟩`. -/
theorem claim3_witness :
    (0 : Int) < 3 ∧
      TailCat.watch (TailCat.fresh "file.txt") none
          (Except.ok { size := 3, isFile := true }) (Except.ok 3) ["hi\n".toList]
        = ({ TailCat.fresh "file.txt" with
              cursor := some 3, watcher := true, liveHandles := 1 },
           Except.ok (streamPassEmits ["hi\n".toList])) :=
  ⟨by decide,
   claim3_amended_first_watch_reads_from_zero "file.txt" 3 true
     ["hi\n".toList] (by decide)⟩

/-- Claim C4, counterexample.  A data notification arrives while the session
is idle (queue enters the `do … while` loop at 1) and two further
notifications arrive while the first pass is in flight.  The claim allows at
most one extra queued pass (at most 2 passes in total); the code runs 3
passes — one per notification — because every notification increments
`#internalQueue` and the loop consumes the counter one pass at a time. -/
theorem claim4_counterexample :
    doWhileLoop 1 [2] = 3 ∧ ¬ (doWhileLoop 1 [2] ≤ 2) := by
  constructor
  · rfl
  · decide

/-- Claim C4, amended: a burst of `n` data-change notifications while a pass
is in flight increments the pending counter by `n` and results in exactly
`n` additional read passes, one per notification — the counter is an
unbounded count consumed to zero before the session is idle again, not a
capacity-one coalescing slot. -/
theorem claim4_amended_one_pass_per_notification (n : Nat) :
    doWhileLoop 1 [n] = 1 + n := by
  cases n with
  | zero => rfl
  | succ m =>
    have hm : ¬ (m + 1 = 0) := by omega
    simp only [doWhileLoop, Nat.add_sub_cancel_left]
    simp [hm, drainLoop_eq]
    omega

/-- Claim C5: when a read pass inside the watcher callback rejects with
`ENOENT` (the watched file was deleted), no error surfaces out of the
callback, the pending-pass counter and the reading flag are reset, the watch
handle is left attached, and a subsequent `unwatch()` succeeds and returns
the session's cursor. -/
theorem claim5_enoent_tolerated (st : TailCat) (h : st.watcher = true) :
    (watcherCallbackOnPassError st FsError.enoent).2 = none ∧
      (watcherCallbackOnPassError st FsError.enoent).1.internalQueue = 0 ∧
      (watcherCallbackOnPassError st FsError.enoent).1.isReading = false ∧
      (watcherCallbackOnPassError st FsError.enoent).1.watcher = true ∧
      (TailCat.unwatch (watcherCallbackOnPassError st FsError.enoent).1).2
        = st.cursor := by
  refine ⟨rfl, rfl, rfl, ?_, rfl⟩
  simpa [watcherCallbackOnPassError] using h

/-- Witness for claim C5 at the concrete watching state. -/
theorem claim5_witness :
    (watcherCallbackOnPassError watchingState FsError.enoent).2 = none ∧
      (watcherCallbackOnPassError watchingState FsError.enoent).1.internalQueue = 0 ∧
      (watcherCallbackOnPassError watchingState FsError.enoent).1.isReading = false ∧
      (watcherCallbackOnPassError watchingState FsError.enoent).1.watcher = true ∧
      (TailCat.unwatch (watcherCallbackOnPassError watchingState FsError.enoent).1).2
        = watchingState.cursor :=
  claim5_enoent_tolerated watchingState rfl

/-- Claim C6: `watch()` while a watcher is attached is a no-op that changes
no state, so consecutive `watch()` calls attach exactly one underlying
watch; `unwatch()` is idempotent — a second call leaves the state fixed and
returns the same cursor; and the session owns at most one live watch handle:
the handle-count invariant is preserved by both operations. -/
theorem claim6_idempotence (st : TailCat) (cursorArg : Option Int)
    (sr : Except FsError Stats) (cs : Except FsError Int)
    (chunks : List (List Char)) :
    (st.watcher = true →
       TailCat.watch st cursorArg sr cs chunks = (st, Except.ok [])) ∧
      TailCat.unwatch (TailCat.unwatch st).1
        = ((TailCat.unwatch st).1, (TailCat.unwatch st).2) ∧
      (HandleInv st →
         HandleInv (TailCat.watch st cursorArg sr cs chunks).1 ∧
           HandleInv (TailCat.unwatch st).1) := by
  refine ⟨?_, ?_, ?_⟩
  · intro h
    simp [TailCat.watch, h]
  · simp [TailCat.unwatch]
  · intro h
    exact ⟨handleInv_watch st cursorArg sr cs chunks h, handleInv_unwatch st h⟩

/-- Witness for claim C6 at the concrete watching state. -/
theorem claim6_witness :
    TailCat.watch watchingState none
        (Except.ok { size := 0, isFile := true }) (Except.ok 0) []
      = (watchingState, Except.ok []) ∧
      HandleInv (TailCat.unwatch watchingState).1 :=
  ⟨(claim6_idempotence watchingState none
      (Except.ok { size := 0, isFile := true }) (Except.ok 0) []).1 rfl,
   ((claim6_idempotence watchingState none
      (Except.ok { size := 0, isFile := true }) (Except.ok 0) []).2.2 rfl).2⟩

/-- Claim C7, counterexample.  A read pass whose `stat` observes file size 5
while the stored cursor is 10 returns without touching the cursor: the
cursor stays 10, it is not clamped down to 5.  (The clamp exists only in
`processFromFileName`, which runs during `watch()` establishment.) -/
theorem claim7_counterexample :
    streamFileFromCursor { watchingState with cursor := some 10 }
        (Except.ok 5) []
      = ({ watchingState with cursor := some 10 }, Except.ok []) ∧
      ({ watchingState with cursor := some 10 } : TailCat).cursor = some 10 :=
  ⟨rfl, rfl⟩

/-- Claim C7, amended: the clamp to the observed size happens only in
`processFromFileName` (the `watch()` establishment path): there, with a
successful `stat` of size `s`, the resulting cursor is always some value
`≤ s`.  A notification-driven read pass that observes a size at or below
the cursor instead returns without reading and leaves the cursor unchanged,
so the cursor can stay above the last observed size while watching. -/
theorem claim7_amended_clamp_only_at_watch_establishment :
    (∀ (st : TailCat) (s : Int) (b : Bool) (chunks : List (List Char))
       (st2 : TailCat) (em : List (List Char)),
       processFromFileName st (Except.ok { size := s, isFile := b })
           (Except.ok s) chunks = (st2, Except.ok em) →
       ∃ c, st2.cursor = some c ∧ c ≤ s) ∧
      (∀ (st : TailCat) (s : Int) (chunks : List (List Char)),
       jsGe st.cursor (some s) = true →
       streamFileFromCursor st (Except.ok s) chunks = (st, Except.ok [])) := by
  constructor
  · intro st s b chunks st2 em heq
    unfold processFromFileName isFileMethodRefTruthy at heq
    simp only [Bool.not_true, Bool.false_eq_true, if_false] at heq
    unfold afterStat at heq
    dsimp only at heq
    obtain ⟨c₁, hc₁⟩ := applyCursorDefault_cursor_some st s
    rcases hres : catchupRead (applyCursorDefault st (some s)) (some s)
        (Except.ok s) chunks with ⟨stR, res⟩
    rw [hres] at heq
    cases res with
    | error e => simp at heq
    | ok em2 =>
      have hst2 : st2 = attachWatcher (clampCursor stR (some s)) := by
        have h1 := congrArg Prod.fst heq
        simpa using h1.symm
      have hR : ∃ c, stR.cursor = some c := by
        rcases catchupRead_cursor_some (applyCursorDefault st (some s))
            (some s) s chunks c₁ hc₁ with h2 | h2 <;>
          rw [hres] at h2
        · exact ⟨c₁, h2⟩
        · exact ⟨s, h2⟩
      obtain ⟨c, hc⟩ := hR
      obtain ⟨d, hd, hds⟩ := clampCursor_le stR c s hc
      refine ⟨d, ?_, hds⟩
      rw [hst2, attachWatcher_cursor, hd]
  · intro st s chunks h
    unfold streamFileFromCursor
    dsimp only
    split
    · rfl
    · simp [h]

/-- Witness for the amended claim C7: establishment clamps a cursor of 5000
down to an observed size of 5, and a read pass at cursor 9 over an observed
size of 4 is a no-op. -/
theorem claim7_witness :
    (∃ c, (processFromFileName { TailCat.fresh "file.txt" with cursor := some 5000 }
        (Except.ok { size := 5, isFile := true }) (Except.ok 5) []).1.cursor
          = some c ∧ c ≤ 5) ∧
      streamFileFromCursor { TailCat.fresh "file.txt" with cursor := some 9 }
          (Except.ok 4) []
        = ({ TailCat.fresh "file.txt" with cursor := some 9 }, Except.ok []) :=
  ⟨claim7_amended_clamp_only_at_watch_establishment.1
     { TailCat.fresh "file.txt" with cursor := some 5000 } 5 true [] _ [] rfl,
   claim7_amended_clamp_only_at_watch_establishment.2
     { TailCat.fresh "file.txt" with cursor := some 9 } 4 [] (by decide)⟩

/-- Claim C8, evaluation of the code at the failing input.  For a path that
exists but is not a regular file (a directory: `stat` succeeds, `isFile()`
would return `false`, observed size 4096), `watch()`'s processing does not
raise the `Can only watch files` error: the guard `!fileData?.isFile` tests
the truthiness of the un-invoked method reference, which is always truthy,
so the check never fires — here the call even completes successfully and
attaches a watcher to the directory. -/
theorem claim8_notafile_never_raised :
    processFromFileName { TailCat.fresh "somedir" with cursor := some 5000 }
        (Except.ok { size := 4096, isFile := false }) (Except.ok 4096) []
      = ({ TailCat.fresh "somedir" with
            cursor := some 4096, watcher := true, liveHandles := 1 },
         Except.ok []) ∧
      ∀ sd : Stats, isFileMethodRefTruthy sd = true :=
  ⟨rfl, fun _ => rfl⟩

/-- Claim C9, counterexample.  Constructing a session with the empty-string
path succeeds: `validateFileName` compares against `undefined` only, so the
empty path is not rejected — refuting "the supplied path is validated to be
non-empty at construction". -/
theorem claim9_counterexample :
    TailCat.new (some "") = Except.ok (TailCat.fresh "") := rfl

/-- Claim C9, amended: constructing with no path (`undefined`) raises the
synchronous invalid-argument error, but that is the only validation — every
actual string, the empty string included, is accepted. -/
theorem claim9_amended_only_undefined_rejected :
    TailCat.new none = Except.error JsError.noFileName ∧
      ∀ s : String, TailCat.new (some s) = Except.ok (TailCat.fresh s) :=
  ⟨rfl, fun _ => rfl⟩

/-- Claim C10: if, during a read pass, a stream chunk contains no occurrence
of the line separator, the splitter does not hold the whole chunk back:
`split` returns the one-element array, `pop` empties it, and the template
literal interpolates the missing `chunks[0]` as the text `undefined` — so
exactly one line is emitted, equal to the carried fragment concatenated with
`undefined` (the blank-after-trim filter never fires on it, as it contains
the letters of `undefined`), and the current chunk becomes the new trailing
fragment. -/
theorem claim10_no_eol_chunk_emits_undefined (frag chunk : List Char)
    (h : eolChar ∉ chunk) :
    processChunk frag chunk = (chunk, [frag ++ "undefined".toList]) := by
  have hsplit := splitOnEOL_no_eol chunk h
  have hend := endsWithEOL_no_eol chunk h
  simp [processChunk, hsplit, hend, jsSet0, jsGetUndef]
  exact isBlank_append_undef frag

/-- Witness for claim C10 at the separator-free chunk `abc` with an empty
carried fragment. -/
theorem claim10_witness :
    eolChar ∉ "abc".toList ∧
      processChunk [] "abc".toList = ("abc".toList, ["undefined".toList]) :=
  ⟨by decide, claim10_no_eol_chunk_emits_undefined [] "abc".toList (by decide)⟩

end Tailcat
